import Mathlib

/-!
Shallow embedding of the analysis notebook
`lensless_imager/01_09_2024_mi_vs_classification_plots_updated_mi_cifar10.ipynb`.

Scalars (MI estimates in bits/pixel, classification accuracies) are modelled
as rationals; numpy arrays of per-trial scalars as lists of rationals; the
grids built by the notebook loops as lists of such lists.  Fallible
operations return `Except`.
-/

/-- Embeds np.min over a nonempty numeric array (np.min of an empty array
raises; the value on `[]` here is an arbitrary default never relied upon). -/
def npMin : List ℚ → ℚ
  | [] => 0
  | [x] => x
  | x :: y :: rest => min x (npMin (y :: rest))

/-- Embeds np.max over a nonempty numeric array (default on `[]` unused). -/
def npMax : List ℚ → ℚ
  | [] => 0
  | [x] => x
  | x :: y :: rest => max x (npMax (y :: rest))

/-- Embeds np.mean: sum divided by length. -/
def npMean (v : List ℚ) : ℚ := v.sum / (v.length : ℚ)

/-- Embeds the guard `np.max(v) / np.min(v) > t` of the clipping step in the
mean-with-error-bars cell, with numpy (IEEE-754) float division made explicit:
when `np.min v = 0` the quotient is +infinity if `np.max v > 0` (which exceeds
every finite threshold) and NaN if `np.max v = 0` (every comparison false);
otherwise it is exact division, modelled by rational division. -/
def clip_guard (v : List ℚ) (t : ℚ) : Bool :=
  if npMin v = 0 then decide (0 < npMax v) else decide (t < npMax v / npMin v)

/-- Embeds the clipping statement of the mean-with-error-bars cell:
`if np.max(v)/np.min(v) > t: v[v > t * np.min(v)] = np.min(v)` (the notebook
uses `t = 2`).  Every entry exceeding `t * np.min v` is replaced by
`np.min v`; nothing happens when the guard is false. -/
def outlier_clip (v : List ℚ) (t : ℚ) : List ℚ :=
  if clip_guard v t then v.map (fun x => if t * npMin v < x then npMin v else x) else v

/-- Embeds np.percentile(values, q) with the default linear interpolation, as
used for the classifier error bars: sort, take the fractional order-statistic
position `h = q/100 * (n-1)`, and interpolate linearly between the
neighbouring order statistics, indices clipped to the array ends. -/
def percentile (v : List ℚ) (q : ℚ) : ℚ :=
  let s := v.insertionSort (· ≤ ·)
  let n := s.length
  let h : ℚ := q / 100 * ((n : ℚ) - 1)
  let lo := s.getD (⌊h⌋).toNat 0
  let hi := s.getD (Nat.min ((⌊h⌋).toNat + 1) (n - 1)) 0
  lo + (h - (⌊h⌋ : ℚ)) * (hi - lo)

/-- Embeds the per-condition statistics of the classifier error-bar cell:
for each condition's trial list, the lower percentile
`100 - 100*(1+confidence_level)/2`, the upper percentile
`100*(1+confidence_level)/2`, and the mean `np.mean(trials)`, gathered into
three parallel sequences (lower bounds, upper bounds, central estimates). -/
def confidence_interval (grid : List (List ℚ)) (c : ℚ) :
    List ℚ × List ℚ × List ℚ :=
  (grid.map (fun trials => percentile trials (100 - 100 * (1 + c) / 2)),
   grid.map (fun trials => percentile trials (100 * (1 + c) / 2)),
   grid.map npMean)

/-- Embeds `np.min(grid, axis=1)` as used for `gaussian_mins` and
`pixelcnn_mins`: per condition (row), the minimum across trials. -/
def minimum_aggregate (grid : List (List ℚ)) : List ℚ := grid.map npMin

/-- Embeds the data flow of the mean-with-error-bars cell for one psf: for
each photon count, the gaussian array is loaded and appended as is, while the
pixelcnn array is clipped with threshold 2 before being appended; the two
accumulated grids are then handed to the confidence-interval aggregation. -/
def mean_error_bars_stage (g p : Nat → List ℚ) : List Nat → List (List ℚ) × List (List ℚ)
  | [] => ([], [])
  | pc :: rest =>
    let acc := mean_error_bars_stage g p rest
    (g pc :: acc.1, outlier_clip (p pc) 2 :: acc.2)

/-- Embeds the MI artifact path of the loading cells:
`mi_folder + 'cifar10_mi_estimates/<estimator>_mi_estimate_{photon_count}_photon_count_{psf_name}_psf.npy'`,
where the notebook instantiates the estimator literal as `gaussian` and
`pixelcnn`. -/
def mi_path (folder estimator : String) (photon_count : Nat) (psf_name : String) : String :=
  folder ++ "cifar10_mi_estimates/" ++ estimator ++ "_mi_estimate_" ++
    toString photon_count ++ "_photon_count_" ++ psf_name ++ "_psf.npy"

/-- Embeds the classifier artifact path of the loading cells:
`classifier_folder + 'classifier_results/cifar_test_accuracy_{photon_count}_mean_photon_count_{psf_name}_psf_{bias}_bias_{model}_model.npy'`. -/
def classifier_path (folder : String) (photon_count : Nat) (psf_name : String)
    (bias : Nat) (model : String) : String :=
  folder ++ "classifier_results/cifar_test_accuracy_" ++ toString photon_count ++
    "_mean_photon_count_" ++ psf_name ++ "_psf_" ++ toString bias ++ "_bias_" ++
    model ++ "_model.npy"

/-- Follows the spec's words for the MI naming convention, with the dataset
label as a parameter:
`<root>/<dataset>_mi_estimates/<estimator>_mi_estimate_<photon_count>_photon_count_<psf_name>_psf.npy`. -/
def mi_path_spec (root dataset estimator : String) (photon_count : Nat)
    (psf_name : String) : String :=
  root ++ dataset ++ "_mi_estimates/" ++ estimator ++ "_mi_estimate_" ++
    toString photon_count ++ "_photon_count_" ++ psf_name ++ "_psf.npy"

/-- Follows the spec's words for the classifier naming convention, with the
dataset label as a parameter:
`<root>/classifier_results/<dataset>_test_accuracy_<photon_count>_mean_photon_count_<psf_name>_psf_<bias>_bias_<model>_model.npy`. -/
def classifier_path_spec (root dataset : String) (photon_count : Nat)
    (psf_name : String) (bias : Nat) (model : String) : String :=
  root ++ "classifier_results/" ++ dataset ++ "_test_accuracy_" ++
    toString photon_count ++ "_mean_photon_count_" ++ psf_name ++ "_psf_" ++
    toString bias ++ "_bias_" ++ model ++ "_model.npy"

/-- Embeds the notebook's `marker_for_psf`: an if/elif chain over the five
known psf names with no else branch, so an unknown name leaves the local
`marker` unbound and the function raises (UnboundLocalError), modelled as
`none`. -/
def marker_for_psf (psf_name : String) : Option Char :=
  if psf_name = "one" then some 'o'
  else if psf_name = "four" then some 's'
  else if psf_name = "diffuser" then some '*'
  else if psf_name = "uc" then some 'x'
  else if psf_name = "two" then some 'd'
  else none

/-- Typed errors of the artifact-lookup contract described by the spec. -/
inductive LoadError where
  | artifactNotFound : String → LoadError
  | artifactFormat : String → LoadError
deriving DecidableEq

/-- Modelled from the spec: the `load(key) -> Array` contract of the Artifact
Lookup component.  The notebook only inlines bare `np.load` calls (which
raise on a missing file); the named operation and its typed errors
(`ArtifactNotFoundError`, `ArtifactFormatError`, the expected-trial-count
shape check) are absent from the source.  The filesystem is a map from paths
to optionally present arrays. -/
def load (fs : String → Option (List ℚ)) (expected : Nat) (path : String) :
    Except LoadError (List ℚ) :=
  match fs path with
  | none => Except.error (LoadError.artifactNotFound path)
  | some arr =>
    if arr.length = expected then Except.ok arr
    else Except.error (LoadError.artifactFormat path)

/-- Modelled from the spec: loading a whole sequence of artifacts, aborting
on the first failure with no partial result (the notebook's loading loops let
the exception propagate, ending the analysis). -/
def loadAll (fs : String → Option (List ℚ)) (expected : Nat) :
    List String → Except LoadError (List (List ℚ))
  | [] => Except.ok []
  | path :: rest =>
    match load fs expected path with
    | Except.error e => Except.error e
    | Except.ok arr =>
      match loadAll fs expected rest with
      | Except.error e => Except.error e
      | Except.ok grid => Except.ok (arr :: grid)

/-- Typed error of the spec's degenerate-statistics contract. -/
inductive AggError where
  | emptyInput : AggError
deriving DecidableEq

/-- Modelled from the spec: `minimum_aggregate` guarded by `EmptyInputError`
on a degenerate (empty) trial set; this guard is absent from the source,
whose aggregation is inline numpy on always-nonempty arrays. -/
def minimum_aggregate_checked (grid : List (List ℚ)) :
    Except AggError (List ℚ) :=
  if grid = [] ∨ [] ∈ grid then Except.error AggError.emptyInput
  else Except.ok (minimum_aggregate grid)

/-- Modelled from the spec: `confidence_interval` guarded by
`EmptyInputError` on a degenerate (empty) trial set; the guard is absent from
the source. -/
def confidence_interval_checked (grid : List (List ℚ)) (c : ℚ) :
    Except AggError (List ℚ × List ℚ × List ℚ) :=
  if grid = [] ∨ [] ∈ grid then Except.error AggError.emptyInput
  else Except.ok (confidence_interval grid c)

/-! ### Helper lemmas about npMin and npMax -/

theorem npMin_singleton (x : ℚ) : npMin [x] = x := rfl

theorem npMin_cons_cons (a b : ℚ) (r : List ℚ) :
    npMin (a :: b :: r) = min a (npMin (b :: r)) := rfl

theorem npMax_cons_cons (a b : ℚ) (r : List ℚ) :
    npMax (a :: b :: r) = max a (npMax (b :: r)) := rfl

theorem npMin_le_of_mem {v : List ℚ} {x : ℚ} (hx : x ∈ v) : npMin v ≤ x := by
  induction v with
  | nil => cases hx
  | cons a rest ih =>
    cases rest with
    | nil =>
      rw [List.mem_singleton] at hx
      rw [hx, npMin_singleton]
    | cons b r =>
      rw [npMin_cons_cons]
      rcases List.mem_cons.mp hx with h | h
      · rw [h]; exact min_le_left _ _
      · exact le_trans (min_le_right _ _) (ih h)

theorem le_npMax_of_mem {v : List ℚ} {x : ℚ} (hx : x ∈ v) : x ≤ npMax v := by
  induction v with
  | nil => cases hx
  | cons a rest ih =>
    cases rest with
    | nil =>
      rw [List.mem_singleton] at hx
      rw [hx]; exact le_refl _
    | cons b r =>
      rw [npMax_cons_cons]
      rcases List.mem_cons.mp hx with h | h
      · rw [h]; exact le_max_left _ _
      · exact le_trans (ih h) (le_max_right _ _)

theorem npMin_mem {v : List ℚ} (h : v ≠ []) : npMin v ∈ v := by
  induction v with
  | nil => exact absurd rfl h
  | cons a rest ih =>
    cases rest with
    | nil => rw [npMin_singleton]; exact List.mem_singleton_self a
    | cons b r =>
      rw [npMin_cons_cons]
      rcases min_cases a (npMin (b :: r)) with ⟨h1, _⟩ | ⟨h1, _⟩
      · rw [h1]; exact List.mem_cons_self a _
      · rw [h1]; exact List.mem_cons_of_mem a (ih (List.cons_ne_nil b r))

theorem npMax_mem {v : List ℚ} (h : v ≠ []) : npMax v ∈ v := by
  induction v with
  | nil => exact absurd rfl h
  | cons a rest ih =>
    cases rest with
    | nil => exact List.mem_singleton_self a
    | cons b r =>
      rw [npMax_cons_cons]
      rcases max_cases a (npMax (b :: r)) with ⟨h1, _⟩ | ⟨h1, _⟩
      · rw [h1]; exact List.mem_cons_self a _
      · rw [h1]; exact List.mem_cons_of_mem a (ih (List.cons_ne_nil b r))

/-! ### Claim theorems -/

/-- Claim C1: for every nonempty trial sequence `v` with `npMin v > 0` and
every threshold `t > 1`, the clipped sequence satisfies
`npMax result / npMin result ≤ t`. -/
theorem C1_outlier_clip_ratio (v : List ℚ) (t : ℚ) (hne : v ≠ [])
    (hmin : 0 < npMin v) (ht : 1 < t) :
    npMax (outlier_clip v t) / npMin (outlier_clip v t) ≤ t := by
  have hm0 : npMin v ≠ 0 := ne_of_gt hmin
  by_cases hg : t < npMax v / npMin v
  · have hguard : clip_guard v t = true := by
      simp [clip_guard, hm0, hg]
    have hclip : outlier_clip v t
        = v.map (fun x => if t * npMin v < x then npMin v else x) := by
      rw [outlier_clip, hguard]; rfl
    rw [hclip]
    set w := v.map (fun x => if t * npMin v < x then npMin v else x) with hw
    have hwne : w ≠ [] := by
      rw [hw]
      intro hcon
      exact hne (List.map_eq_nil_iff.mp hcon)
    have hbounds : ∀ y ∈ w, npMin v ≤ y ∧ y ≤ t * npMin v := by
      intro y hy
      rw [hw] at hy
      rcases List.mem_map.mp hy with ⟨x, hxv, hfx⟩
      by_cases hc : t * npMin v < x
      · rw [← hfx]
        simp only [hc, if_pos]
        exact ⟨le_refl _, le_mul_of_one_le_left (le_of_lt hmin) (le_of_lt ht)⟩
      · rw [← hfx]
        simp only [hc, if_neg, if_false]
        exact ⟨npMin_le_of_mem hxv, le_of_not_lt hc⟩
    have hminw : npMin v ≤ npMin w := (hbounds _ (npMin_mem hwne)).1
    have hminw_pos : 0 < npMin w := lt_of_lt_of_le hmin hminw
    have hmaxw : npMax w ≤ t * npMin v := (hbounds _ (npMax_mem hwne)).2
    rw [div_le_iff₀ hminw_pos]
    calc npMax w ≤ t * npMin v := hmaxw
      _ ≤ t * npMin w :=
        mul_le_mul_of_nonneg_left hminw (le_of_lt (lt_trans one_pos ht))
  · have hguard : clip_guard v t = false := by
      simp [clip_guard, hm0, hg]
    have hid : outlier_clip v t = v := by
      rw [outlier_clip, hguard]; rfl
    rw [hid]
    exact le_of_not_lt hg

/-- Witness for C1 at the concrete input `v = [1, 5]`, `t = 2`. -/
theorem C1_outlier_clip_ratio_witness :
    (([(1 : ℚ), 5] : List ℚ) ≠ [] ∧ 0 < npMin [(1 : ℚ), 5] ∧ (1 : ℚ) < 2)
    ∧ npMax (outlier_clip [(1 : ℚ), 5] 2) / npMin (outlier_clip [(1 : ℚ), 5] 2) ≤ 2 :=
  ⟨⟨by decide, by decide, by decide⟩,
    C1_outlier_clip_ratio [(1 : ℚ), 5] 2 (by decide) (by decide) (by decide)⟩

/-- Counterexample to claim C2 as stated: on `v = [0, 1]` (nonpositive
minimum) with threshold 2, the clipping step is not a no-op: the source guard
`np.max(v)/np.min(v) > 2` evaluates `1/0 = +inf > 2` and fires, replacing
every positive entry by 0. -/
theorem C2_counterexample :
    outlier_clip [(0 : ℚ), 1] 2 = [0, 0] ∧ outlier_clip [(0 : ℚ), 1] 2 ≠ [0, 1] := by
  have h : outlier_clip [(0 : ℚ), 1] 2 = [0, 0] := by
    norm_num [outlier_clip, clip_guard, npMin, npMax]
  exact ⟨h, by rw [h]; decide⟩

/-- Claim C2 amended: for a nonempty trial sequence with nonpositive minimum
and threshold `t > 1`, no division error is raised (the operation is total),
and it is a no-op when the minimum is negative, or zero with no positive
entry; but when the minimum is zero and the maximum positive, the division is
still evaluated (numpy: +infinity, no exception) and every positive entry is
clipped to 0 — not a no-op. -/
theorem C2_outlier_clip_nonpositive_min (v : List ℚ) (t : ℚ) (hne : v ≠ [])
    (ht : 1 < t) (_hmin : npMin v ≤ 0) :
    (npMin v < 0 → outlier_clip v t = v)
    ∧ (npMin v = 0 → npMax v ≤ 0 → outlier_clip v t = v)
    ∧ (npMin v = 0 → 0 < npMax v →
        outlier_clip v t = v.map (fun x => if 0 < x then 0 else x)) := by
  refine ⟨?_, ?_, ?_⟩
  · intro hneg
    have hm0 : npMin v ≠ 0 := ne_of_lt hneg
    have hle : npMax v / npMin v ≤ 1 := by
      rw [div_le_iff_of_neg hneg, one_mul]
      exact npMin_le_of_mem (npMax_mem hne)
    have hng : ¬ (t < npMax v / npMin v) :=
      not_lt.mpr (le_trans hle (le_of_lt ht))
    have hguard : clip_guard v t = false := by
      simp [clip_guard, hm0, hng]
    rw [outlier_clip, hguard]; rfl
  · intro hmin0 hmax
    have hguard : clip_guard v t = false := by
      simp [clip_guard, hmin0, not_lt.mpr hmax]
    rw [outlier_clip, hguard]; rfl
  · intro hmin0 hmax
    have hguard : clip_guard v t = true := by
      simp [clip_guard, hmin0, hmax]
    have hclip : outlier_clip v t
        = v.map (fun x => if t * npMin v < x then npMin v else x) := by
      rw [outlier_clip, hguard]; rfl
    rw [hclip]
    simp only [hmin0, mul_zero]

/-- Witness for the amended C2 at the concrete input `v = [-1, 1]`, `t = 2`. -/
theorem C2_outlier_clip_nonpositive_min_witness :
    (([(-1 : ℚ), 1] : List ℚ) ≠ [] ∧ (1 : ℚ) < 2 ∧ npMin [(-1 : ℚ), 1] ≤ 0)
    ∧ ((npMin [(-1 : ℚ), 1] < 0 → outlier_clip [(-1 : ℚ), 1] 2 = [(-1 : ℚ), 1])
      ∧ (npMin [(-1 : ℚ), 1] = 0 → npMax [(-1 : ℚ), 1] ≤ 0 →
          outlier_clip [(-1 : ℚ), 1] 2 = [(-1 : ℚ), 1])
      ∧ (npMin [(-1 : ℚ), 1] = 0 → 0 < npMax [(-1 : ℚ), 1] →
          outlier_clip [(-1 : ℚ), 1] 2
            = ([(-1 : ℚ), 1] : List ℚ).map (fun x => if 0 < x then 0 else x))) :=
  ⟨⟨by decide, by decide, by decide⟩,
    C2_outlier_clip_nonpositive_min [(-1 : ℚ), 1] 2 (by decide) (by decide) (by decide)⟩

/-- Percentile of a single-element sample is that element, for every q. -/
theorem percentile_singleton (x q : ℚ) : percentile [x] q = x := by
  unfold percentile
  norm_num [List.insertionSort, List.orderedInsert]

/-- Claim C3: per condition, `confidence_interval` returns the arithmetic
mean of the trials as central estimate and the
`100 - 100*(1+confidence_level)/2` / `100*(1+confidence_level)/2` percentiles
as bounds; `confidence_level = 0.9` yields the 5th and 95th percentiles, and
a length-1 trial sequence collapses both bounds to the single value. -/
theorem C3_confidence_interval (grid : List (List ℚ)) (c : ℚ)
    (h0 : 0 < c) (h1 : c < 1) :
    confidence_interval grid c
      = (grid.map (fun trials => percentile trials (100 - 100 * (1 + c) / 2)),
         grid.map (fun trials => percentile trials (100 * (1 + c) / 2)),
         grid.map npMean)
    ∧ (c = 9 / 10 →
        confidence_interval grid c
          = (grid.map (fun trials => percentile trials 5),
             grid.map (fun trials => percentile trials 95),
             grid.map npMean))
    ∧ (∀ x : ℚ, confidence_interval [[x]] c = ([x], [x], [x])) := by
  refine ⟨rfl, ?_, ?_⟩
  · rintro rfl
    have h5 : (100 : ℚ) - 100 * (1 + 9 / 10) / 2 = 5 := by norm_num
    have h95 : (100 : ℚ) * (1 + 9 / 10) / 2 = 95 := by norm_num
    simp only [confidence_interval, h5, h95]
    norm_num
  · intro x
    simp [confidence_interval, percentile_singleton, npMean]

/-- Witness for C3 at the concrete inputs `grid = [[7]]`,
`confidence_level = 9/10`. -/
theorem C3_confidence_interval_witness :
    (0 : ℚ) < 9 / 10 ∧ (9 / 10 : ℚ) < 1
    ∧ confidence_interval [[(7 : ℚ)]] (9 / 10) = ([7], [7], [7]) :=
  ⟨by norm_num, by norm_num,
    (C3_confidence_interval [[(7 : ℚ)]] (9 / 10) (by norm_num) (by norm_num)).2.2 7⟩

/-- Per condition, the aggregated value is a member of that condition's trial
list and a lower bound for it. -/
theorem minimum_aggregate_spec :
    ∀ grid : List (List ℚ), (∀ trials ∈ grid, trials ≠ []) →
      List.Forall₂ (fun m trials => m ∈ trials ∧ ∀ x ∈ trials, m ≤ x)
        (minimum_aggregate grid) grid := by
  intro grid
  induction grid with
  | nil => intro _; exact List.Forall₂.nil
  | cons trials rest ih =>
    intro hne
    refine List.Forall₂.cons ?_ (ih fun l hl => hne l (List.mem_cons_of_mem _ hl))
    exact ⟨npMin_mem (hne trials (List.mem_cons_self _ _)),
      fun x hx => npMin_le_of_mem hx⟩

/-- Claim C4: `minimum_aggregate` returns, per condition, the minimum across
that condition's trials (a member of the trials that bounds them all from
below), and on `[[5,3,9],[2,8,1]]` it returns `[3,1]`. -/
theorem C4_minimum_aggregate (grid : List (List ℚ))
    (hne : ∀ trials ∈ grid, trials ≠ []) :
    List.Forall₂ (fun m trials => m ∈ trials ∧ ∀ x ∈ trials, m ≤ x)
      (minimum_aggregate grid) grid
    ∧ minimum_aggregate [[(5 : ℚ), 3, 9], [2, 8, 1]] = [3, 1] :=
  ⟨minimum_aggregate_spec grid hne, by decide⟩

/-- Witness for C4 at the concrete grid `[[5,3,9],[2,8,1]]`. -/
theorem C4_minimum_aggregate_witness :
    (∀ trials ∈ ([[(5 : ℚ), 3, 9], [2, 8, 1]] : List (List ℚ)), trials ≠ [])
    ∧ minimum_aggregate [[(5 : ℚ), 3, 9], [2, 8, 1]] = [3, 1] :=
  ⟨by decide,
    (C4_minimum_aggregate [[(5 : ℚ), 3, 9], [2, 8, 1]] (by decide)).2⟩

/-- Claim C10: in the mean-with-error-bars stage, every gaussian MI estimate
array is passed on to the confidence-interval aggregation unchanged (element
for element the loaded artifact), while the clipping (threshold 2) is applied
only to the pixelcnn arrays. -/
theorem C10_gaussian_passed_unclipped (g p : Nat → List ℚ)
    (photon_counts : List Nat) :
    (mean_error_bars_stage g p photon_counts).1 = photon_counts.map g
    ∧ (mean_error_bars_stage g p photon_counts).2
      = photon_counts.map (fun pc => outlier_clip (p pc) 2) := by
  induction photon_counts with
  | nil => exact ⟨rfl, rfl⟩
  | cons pc rest ih =>
    exact ⟨by simp [mean_error_bars_stage, ih.1],
      by simp [mean_error_bars_stage, ih.2]⟩

/-- Loading a sequence of artifacts one of which is missing can never yield a
grid: the error aborts the whole load with no partial result. -/
theorem loadAll_not_ok_of_missing (fs : String → Option (List ℚ))
    (expected : Nat) (path : String) (hmiss : fs path = none) :
    ∀ paths : List String, path ∈ paths →
      ∀ grid, loadAll fs expected paths ≠ Except.ok grid := by
  intro paths
  induction paths with
  | nil => intro hmem; cases hmem
  | cons q rest ih =>
    intro hmem grid hok
    rcases List.mem_cons.mp hmem with rfl | hmem2
    · simp only [loadAll, load, hmiss] at hok
      exact Except.noConfusion hok
    · cases hq : load fs expected q with
      | error e =>
        simp only [loadAll, hq] at hok
        exact Except.noConfusion hok
      | ok arr =>
        cases hr : loadAll fs expected rest with
        | error e =>
          simp only [loadAll, hq, hr] at hok
          exact Except.noConfusion hok
        | ok grid2 => exact ih hmem2 grid2 hr

/-- Claim C5: a lookup whose artifact file does not exist yields
`ArtifactNotFoundError`, and the whole analysis load aborts with no
partial-result fallback (no grid is ever produced). -/
theorem C5_missing_artifact (fs : String → Option (List ℚ)) (expected : Nat)
    (paths : List String) (path : String) (hmem : path ∈ paths)
    (hmiss : fs path = none) :
    load fs expected path = Except.error (LoadError.artifactNotFound path)
    ∧ ∀ grid, loadAll fs expected paths ≠ Except.ok grid :=
  ⟨by simp only [load, hmiss],
    loadAll_not_ok_of_missing fs expected path hmiss paths hmem⟩

/-- Witness for C5 on the empty filesystem and the single path `a.npy`. -/
theorem C5_missing_artifact_witness :
    ("a.npy" ∈ (["a.npy"] : List String))
    ∧ ((fun _ : String => (none : Option (List ℚ))) "a.npy" = none)
    ∧ (load (fun _ : String => (none : Option (List ℚ))) 9 "a.npy"
        = Except.error (LoadError.artifactNotFound "a.npy")
      ∧ ∀ grid, loadAll (fun _ : String => (none : Option (List ℚ))) 9 ["a.npy"]
          ≠ Except.ok grid) :=
  ⟨by decide, rfl,
    C5_missing_artifact (fun _ => none) 9 ["a.npy"] "a.npy" (by decide) rfl⟩

/-- Claim C7: a lookup whose loaded artifact's shape does not match the
expected trial count for that key yields `ArtifactFormatError` immediately. -/
theorem C7_shape_mismatch (fs : String → Option (List ℚ)) (expected : Nat)
    (path : String) (arr : List ℚ) (hfound : fs path = some arr)
    (hlen : arr.length ≠ expected) :
    load fs expected path = Except.error (LoadError.artifactFormat path) := by
  simp only [load, hfound]
  rw [if_neg hlen]

/-- Witness for C7: a two-trial artifact where nine trials are expected. -/
theorem C7_shape_mismatch_witness :
    ((fun _ : String => some [(1 : ℚ), 2]) "a.npy" = some [(1 : ℚ), 2])
    ∧ ([(1 : ℚ), 2] : List ℚ).length ≠ 9
    ∧ load (fun _ : String => some [(1 : ℚ), 2]) 9 "a.npy"
        = Except.error (LoadError.artifactFormat "a.npy") :=
  ⟨rfl, by decide,
    C7_shape_mismatch (fun _ => some [(1 : ℚ), 2]) 9 "a.npy" [(1 : ℚ), 2] rfl (by decide)⟩

/-- Claim C8: on a degenerate input containing an empty trial list, both
aggregation operations surface `EmptyInputError` rather than a silent NaN. -/
theorem C8_empty_trials (grid : List (List ℚ)) (c : ℚ) (hempty : [] ∈ grid) :
    minimum_aggregate_checked grid = Except.error AggError.emptyInput
    ∧ confidence_interval_checked grid c = Except.error AggError.emptyInput := by
  have h : grid = [] ∨ [] ∈ grid := Or.inr hempty
  exact ⟨by rw [minimum_aggregate_checked, if_pos h],
    by rw [confidence_interval_checked, if_pos h]⟩

/-- Witness for C8 at the grid `[[]]`. -/
theorem C8_empty_trials_witness :
    (([] : List ℚ) ∈ ([[]] : List (List ℚ)))
    ∧ minimum_aggregate_checked [[]] = Except.error AggError.emptyInput
    ∧ confidence_interval_checked [[]] (9 / 10) = Except.error AggError.emptyInput :=
  ⟨by decide,
    (C8_empty_trials [[]] (9 / 10) (by decide)).1,
    (C8_empty_trials [[]] (9 / 10) (by decide)).2⟩

/-- Claim C9: `marker_for_psf` on any psf name outside the five known labels
yields an error (the notebook's if/elif chain leaves `marker` unbound),
not a silent default; on the five known labels it yields five pairwise
distinct markers. -/
theorem C9_marker_for_psf (s : String)
    (h : s ∉ (["one", "four", "diffuser", "uc", "two"] : List String)) :
    marker_for_psf s = none
    ∧ (∀ n1 ∈ (["one", "four", "diffuser", "uc", "two"] : List String),
        ∀ n2 ∈ (["one", "four", "diffuser", "uc", "two"] : List String),
        n1 ≠ n2 → marker_for_psf n1 ≠ marker_for_psf n2)
    ∧ (∀ n ∈ (["one", "four", "diffuser", "uc", "two"] : List String),
        marker_for_psf n ≠ none) := by
  refine ⟨?_, by decide, by decide⟩
  simp only [List.mem_cons, List.not_mem_nil, not_or, or_false] at h
  obtain ⟨h1, h2, h3, h4, h5⟩ := h
  simp [marker_for_psf, h1, h2, h3, h4, h5]

/-- Witness for C9 at the unknown psf name `three`. -/
theorem C9_marker_for_psf_witness :
    ("three" ∉ (["one", "four", "diffuser", "uc", "two"] : List String))
    ∧ marker_for_psf "three" = none :=
  ⟨by decide, (C9_marker_for_psf "three" (by decide)).1⟩

/-- The code's MI path convention is the spec's template instantiated with
the dataset label `cifar10`. -/
theorem mi_path_eq_spec (root estimator : String) (photon_count : Nat)
    (psf_name : String) :
    mi_path root estimator photon_count psf_name
      = mi_path_spec root "cifar10" estimator photon_count psf_name := by
  unfold mi_path mi_path_spec
  rw [String.append_assoc root "cifar10" "_mi_estimates/"]
  rfl

/-- The code's classifier path convention is the spec's template instantiated
with the dataset label `cifar`. -/
theorem classifier_path_eq_spec (root : String) (photon_count : Nat)
    (psf_name : String) (bias : Nat) (model : String) :
    classifier_path root photon_count psf_name bias model
      = classifier_path_spec root "cifar" photon_count psf_name bias model := by
  unfold classifier_path classifier_path_spec
  rw [String.append_assoc (root ++ "classifier_results/") "cifar" "_test_accuracy_"]
  rw [String.append_assoc root "classifier_results/" ("cifar" ++ "_test_accuracy_")]
  rfl

/-- Counterexample to claim C6 as stated: at the concrete key
(root `""`, estimator `gaussian`, photon count 20, psf `one`, bias 10, model
`cnn`) there is no single dataset label that instantiates the spec's two
templates to the code's two paths — the MI path uses `cifar10` while the
classifier path uses `cifar`. -/
theorem C6_counterexample :
    ¬ ∃ dataset : String,
      mi_path_spec "" dataset "gaussian" 20 "one" = mi_path "" "gaussian" 20 "one"
      ∧ classifier_path_spec "" dataset 20 "one" 10 "cnn"
          = classifier_path "" 20 "one" 10 "cnn" := by
  rintro ⟨d, h1, h2⟩
  have h1' : mi_path_spec "" d "gaussian" 20 "one"
      = mi_path_spec "" "cifar10" "gaussian" 20 "one" :=
    h1.trans (mi_path_eq_spec "" "gaussian" 20 "one")
  have hdata := congrArg String.data h1'
  simp only [mi_path_spec, String.empty_append, String.data_append,
    List.append_assoc] at hdata
  have hd : d = "cifar10" := String.ext (List.append_cancel_right hdata)
  rw [hd] at h2
  exact absurd h2 (by decide)

/-- Claim C6 amended: the artifact paths follow exactly the two templates of
the spec, but with different dataset labels in the two conventions: the MI
convention uses `cifar10` while the classifier convention uses `cifar`. -/
theorem C6_path_conventions (root estimator psf_name model : String)
    (photon_count bias : Nat) :
    mi_path root estimator photon_count psf_name
      = mi_path_spec root "cifar10" estimator photon_count psf_name
    ∧ classifier_path root photon_count psf_name bias model
      = classifier_path_spec root "cifar" photon_count psf_name bias model :=
  ⟨mi_path_eq_spec root estimator photon_count psf_name,
    classifier_path_eq_spec root photon_count psf_name bias model⟩
